import Mathlib

/-!
Verification of the edge request gatekeeper: the in-memory sliding-window
rate limiter (`consume`, `pruneOldHits`, `getClientIp`,
`buildRateLimitHeaders` from `src/lib/rateLimit.ts`) and the Next.js
middleware pipeline (`applySecurityHeaders`, `middleware` from
`middleware.ts`).

Modelling conventions:
- timestamps are integers (milliseconds, as returned by `Date.now()`); all
  `nowMs()` reads inside one `consume` call are modelled as a single `now`
  parameter (the call is synchronous);
- the mutable `memoryStore : Map<string, StoreRecord>` is modelled as a
  function `String → Option StoreRecord` threaded through `consume`;
- `Headers.get` returning `null` is modelled as `Option.none`; JavaScript
  string truthiness (`if (s)`) is `s ≠ ""` after `Option.getD ""`;
- a `NextResponse` is modelled by its status, its explicitly set headers
  (an ordered association list with `set` = replace) and its body, where
  `BodyM.passThrough` stands for `NextResponse.next()` (the downstream
  handler's response, never inspected by the middleware).
-/

/-- `StoreRecord` from rateLimit.ts: timestamps (ms) of recorded requests
plus the last prune timestamp (`0` = never pruned, the JS falsy encoding). -/
structure StoreRecord where
  hits : List Int
  lastPruneAt : Int
deriving DecidableEq

/-- `LimitResult` from rateLimit.ts. -/
structure LimitResult where
  allowed : Bool
  remaining : Int
  limit : Int
  reset : Int
deriving DecidableEq

/-- `RateLimitOptions` from rateLimit.ts (`bucketCap` optional). -/
structure RateLimitOptions where
  limit : Int
  windowMs : Int
  bucketCap : Option Int
deriving DecidableEq

abbrev Store := String → Option StoreRecord

def emptyStore : Store := fun _ => none

def nullRecord : StoreRecord := { hits := [], lastPruneAt := 0 }

/-- Default bucket capacity: `Math.max(options.limit * 5, 100)`. -/
def defaultBucketCap (limit : Int) : Int := max (limit * 5) 100

/-- The bucket capacity `consume` actually uses for the given options. -/
def effBucketCap (opts : RateLimitOptions) : Int :=
  opts.bucketCap.getD (defaultBucketCap opts.limit)

/-- The while-loop of `pruneOldHits`: drop the leading run of hits with
`hits[i] <= cutoff` (`while (i < hits.length && hits[i] <= cutoff) i++;
hits.splice(0, i)`). -/
def pruneHits : List Int → Int → List Int
  | [], _ => []
  | h :: t, cutoff => if h ≤ cutoff then pruneHits t cutoff else h :: t

/-- `pruneOldHits(record, windowMs)`: drop the leading hits at or before
`now - windowMs` and stamp `lastPruneAt = now`. -/
def pruneOldHits (record : StoreRecord) (windowMs now : Int) : StoreRecord :=
  { hits := pruneHits record.hits (now - windowMs), lastPruneAt := now }

/-- The bucket-capacity trim in `consume`:
`if (hits.length > bucketCap) hits.splice(0, hits.length - bucketCap)`. -/
def trimToCap (hits : List Int) (cap : Int) : List Int :=
  if (hits.length : Int) > cap then hits.drop ((hits.length : Int) - cap).toNat
  else hits

/-- The guarded prune inside `consume`:
`if (!record.lastPruneAt || nowMs() - record.lastPruneAt > 500)
pruneOldHits(record, windowMs)`. -/
def pruneGate (record : StoreRecord) (windowMs now : Int) : StoreRecord :=
  if record.lastPruneAt = 0 ∨ now - record.lastPruneAt > 500 then
    pruneOldHits record windowMs now
  else record

/-- `consume(key, options)` from rateLimit.ts, with the store passed and
returned explicitly and `now` the value of `nowMs()` during the call.
`Math.ceil(resetMs / 1000)` is `(resetMs + 999) / 1000` since
`resetMs = Math.max(0, …) ≥ 0`. -/
def consume (key : String) (opts : RateLimitOptions) (now : Int)
    (store : Store) : LimitResult × Store :=
  let bucketCap := effBucketCap opts
  let record0 := (store key).getD nullRecord
  let record1 := pruneGate record0 opts.windowMs now
  let hits := trimToCap (record1.hits ++ [now]) bucketCap
  let count : Int := hits.length
  let allowed : Bool := decide (count ≤ opts.limit)
  let oldest := hits.head?.getD now
  let resetMs := max 0 (oldest + opts.windowMs - now)
  let reset := Int.ediv (resetMs + 999) 1000
  let remaining := max 0 (opts.limit - (if allowed then count else opts.limit))
  ({ allowed := allowed, remaining := remaining, limit := opts.limit,
     reset := reset },
   fun k =>
     if k = key then some { hits := hits, lastPruneAt := record1.lastPruneAt }
     else store k)

/-- A sequence of `consume` calls on one key, threading the store; returns
the list of decisions in call order and the final store. -/
def consumeAll (key : String) (opts : RateLimitOptions) :
    List Int → Store → List LimitResult × Store
  | [], store => ([], store)
  | t :: rest, store =>
    let step := consume key opts t store
    let next := consumeAll key opts rest step.2
    (step.1 :: next.1, next.2)

/-- A read-only view of request headers: `headers.get(name)` with `none`
for a missing header. -/
abbrev HeaderSource := String → Option String

/-- JavaScript `s.trim()`: strip leading and trailing whitespace
(modelled over the ASCII whitespace characters, which `Char.isWhitespace`
covers). -/
def jsTrim (s : String) : String :=
  ⟨((s.data.dropWhile Char.isWhitespace).reverse.dropWhile
      Char.isWhitespace).reverse⟩

/-- JavaScript `s.split(sep)[0]`: the characters before the first
occurrence of the separator (the whole string when absent). -/
def firstSegment (sep : Char) (s : String) : String :=
  ⟨s.data.takeWhile (fun c => c != sep)⟩

/-- JavaScript `s.startsWith(p)`: the characters of `p` are an initial run
of the characters of `s`. -/
def jsStartsWith (s p : String) : Bool :=
  s.data.take p.data.length == p.data

/-- `getClientIp(headers)` from rateLimit.ts. `xff.split(",")[0]?.trim()`
is the trimmed first comma-separated segment; each JS `if (s)` guard is
non-null and non-empty. -/
def getClientIp (headers : HeaderSource) : String :=
  let xff := (headers "x-forwarded-for").getD ""
  let ip := jsTrim (firstSegment ',' xff)
  if xff ≠ "" ∧ ip ≠ "" then ip
  else
    let realIp := (headers "x-real-ip").getD ""
    if realIp ≠ "" then realIp
    else
      let vcIp := (headers "x-vercel-forwarded-for").getD ""
      if vcIp ≠ "" then vcIp
      else "0.0.0.0"

/-- `buildRateLimitHeaders(result)` from rateLimit.ts. -/
def buildRateLimitHeaders (result : LimitResult) : List (String × String) :=
  [("RateLimit-Limit", toString result.limit),
   ("RateLimit-Remaining", toString result.remaining),
   ("RateLimit-Reset", toString result.reset)]

/-- The request data the middleware reads: method, `nextUrl.pathname`,
`nextUrl.origin` (the request's own origin) and the header map. -/
structure RequestM where
  method : String
  pathname : String
  nextUrlOrigin : String
  headers : HeaderSource

/-- Response body: a JSON payload string built by `NextResponse.json`, or
the downstream handler's body for `NextResponse.next()`. -/
inductive BodyM
  | payload (s : String)
  | passThrough
deriving DecidableEq

/-- A response as the middleware shapes it: status, explicitly set headers
(in order), body. For a pass-through the recorded status is the
`NextResponse.next()` default; the real status comes from downstream. -/
structure ResponseM where
  status : Int
  headers : List (String × String)
  body : BodyM

/-- Header lookup (first entry with the given name). -/
def getHeader : List (String × String) → String → Option String
  | [], _ => none
  | p :: rest, name => if p.1 = name then some p.2 else getHeader rest name

/-- `response.headers.set(name, value)`: replace any existing entry for
`name` with the single new one. -/
def setHeader (hs : List (String × String)) (name value : String) :
    List (String × String) :=
  hs.filter (fun p => p.1 != name) ++ [(name, value)]

/-- The CSP directive list from `applySecurityHeaders`. -/
def cspDirectives : List String :=
  ["default-src \x27self\x27",
   "script-src \x27self\x27 \x27unsafe-inline\x27 \x27unsafe-eval\x27",
   "style-src \x27self\x27 \x27unsafe-inline\x27 https://fonts.googleapis.com",
   "font-src \x27self\x27 https://fonts.gstatic.com data:",
   "img-src \x27self\x27 data: https:",
   "connect-src \x27self\x27 https:",
   "frame-ancestors \x27none\x27",
   "base-uri \x27self\x27",
   "form-action \x27self\x27"]

def cspValue : String := String.intercalate "; " cspDirectives

/-- `applySecurityHeaders(response, req)` from middleware.ts: set the
eight fixed security headers, then for `/api` paths with an absent or
same-origin `origin` header, set the five CORS headers. -/
def applySecurityHeaders (response : ResponseM) (req : RequestM) : ResponseM :=
  let hs := response.headers
  let hs := setHeader hs "Content-Security-Policy" cspValue
  let hs := setHeader hs "Referrer-Policy" "strict-origin-when-cross-origin"
  let hs := setHeader hs "X-Content-Type-Options" "nosniff"
  let hs := setHeader hs "X-Frame-Options" "DENY"
  let hs := setHeader hs "X-XSS-Protection" "0"
  let hs := setHeader hs "Permissions-Policy" "geolocation=(), microphone=(), camera=()"
  let hs := setHeader hs "Cross-Origin-Opener-Policy" "same-origin"
  let hs := setHeader hs "Cross-Origin-Resource-Policy" "same-site"
  let origin := (req.headers "origin").getD ""
  let hs :=
    if jsStartsWith req.pathname "/api" then
      if origin = "" ∨ origin = req.nextUrlOrigin then
        let hs := setHeader hs "Access-Control-Allow-Origin" req.nextUrlOrigin
        let hs := setHeader hs "Vary" "Origin"
        let hs := setHeader hs "Access-Control-Allow-Headers"
          "Content-Type, Authorization, X-Requested-With"
        let hs := setHeader hs "Access-Control-Allow-Methods"
          "GET, POST, PUT, DELETE, OPTIONS"
        setHeader hs "Access-Control-Max-Age" "600"
      else hs
    else hs
  { response with headers := hs }

def API_WINDOW_MS : Int := 60000

def API_LIMIT : Int := 60

def shouldRateLimit (pathname : String) : Bool := jsStartsWith pathname "/api"

/-- Serialized body of `NextResponse.json({}, { status: 204 })`:
`JSON.stringify(\x7b\x7d)`. -/
def preflightBody : String := "\x7b\x7d"

/-- Serialized 429 body from the middleware. -/
def rateLimitedBody : String :=
  "\x7b\"ok\":false,\"error\":\x7b\"code\":\"rate_limited\",\"message\":\"Too many requests, please try again later.\"\x7d\x7d"

/-- `middleware(req)` from middleware.ts, with the limiter store threaded
explicitly and `now` the clock value during the call. -/
def middleware (req : RequestM) (now : Int) (store : Store) :
    ResponseM × Store :=
  let pathname := req.pathname
  if req.method = "OPTIONS" ∧ jsStartsWith pathname "/api" then
    let preflight : ResponseM :=
      { status := 204, headers := [], body := BodyM.payload preflightBody }
    (applySecurityHeaders preflight req, store)
  else if shouldRateLimit pathname ∧ ¬ jsStartsWith pathname "/api/auth" then
    let ip := getClientIp req.headers
    let key := ip ++ ":" ++ pathname
    let step :=
      consume key
        { limit := API_LIMIT, windowMs := API_WINDOW_MS, bucketCap := none }
        now store
    let result := step.1
    let headers := buildRateLimitHeaders result
    if ¬ result.allowed then
      let res : ResponseM :=
        { status := 429, headers := headers,
          body := BodyM.payload rateLimitedBody }
      (applySecurityHeaders res req, step.2)
    else
      let res : ResponseM :=
        { status := 200, headers := headers, body := BodyM.passThrough }
      (applySecurityHeaders res req, step.2)
  else
    (applySecurityHeaders
      { status := 200, headers := [], body := BodyM.passThrough } req, store)

def dfltResult : LimitResult :=
  { allowed := false, remaining := 0, limit := 0, reset := 0 }

/-- The response carries all eight fixed security headers with the values
`applySecurityHeaders` writes. -/
def secHeaderOk (r : ResponseM) : Prop :=
  getHeader r.headers "Content-Security-Policy" = some cspValue
  ∧ getHeader r.headers "Referrer-Policy"
      = some "strict-origin-when-cross-origin"
  ∧ getHeader r.headers "X-Content-Type-Options" = some "nosniff"
  ∧ getHeader r.headers "X-Frame-Options" = some "DENY"
  ∧ getHeader r.headers "X-XSS-Protection" = some "0"
  ∧ getHeader r.headers "Permissions-Policy"
      = some "geolocation=(), microphone=(), camera=()"
  ∧ getHeader r.headers "Cross-Origin-Opener-Policy" = some "same-origin"
  ∧ getHeader r.headers "Cross-Origin-Resource-Policy" = some "same-site"

/-! ## Helper lemmas about the header map -/

theorem getHeader_setHeader_self (hs : List (String × String)) (n v : String) :
    getHeader (setHeader hs n v) n = some v := by
  induction hs with
  | nil => simp [setHeader, getHeader]
  | cons p rest ih =>
    by_cases hp : p.1 = n
    · simpa [setHeader, List.filter_cons, hp] using ih
    · simpa [setHeader, List.filter_cons, hp, getHeader] using ih

theorem getHeader_setHeader_ne (hs : List (String × String)) {name n : String}
    (v : String) (h : name ≠ n) :
    getHeader (setHeader hs n v) name = getHeader hs name := by
  have hn : n ≠ name := Ne.symm h
  induction hs with
  | nil => simp [setHeader, getHeader, hn]
  | cons p rest ih =>
    by_cases hp : p.1 = n
    · simpa [setHeader, List.filter_cons, hp, getHeader, hn] using ih
    · by_cases hq : p.1 = name
      · simp [setHeader, List.filter_cons, hp, getHeader, hq, h, hn]
      · simpa [setHeader, List.filter_cons, hp, getHeader, hq] using ih

/-! ## Helper lemmas about pruning and the bucket cap -/

theorem pruneHits_eq_self (hits : List Int) (cutoff : Int)
    (h : ∀ a ∈ hits, cutoff < a) : pruneHits hits cutoff = hits := by
  cases hits with
  | nil => rfl
  | cons a t =>
    have : ¬ a ≤ cutoff := by have := h a (by simp); omega
    simp [pruneHits, this]

theorem pruneHits_sorted (hits : List Int) (cutoff : Int)
    (h : hits.Pairwise (· ≤ ·)) :
    pruneHits hits cutoff = hits.filter (fun t => decide (cutoff < t)) := by
  induction hits with
  | nil => rfl
  | cons a t ih =>
    rw [List.pairwise_cons] at h
    by_cases ha : a ≤ cutoff
    · have : ¬ (cutoff < a) := by omega
      simp [pruneHits, ha, List.filter_cons, this, ih h.2]
    · have h1 : cutoff < a := by omega
      have h2 : t.filter (fun t => decide (cutoff < t)) = t :=
        List.filter_eq_self.mpr (fun b hb => by
          have := h.1 b hb; simp; omega)
      simp [pruneHits, ha, List.filter_cons, h1, h2]

theorem length_filter_le_pruneHits (hits : List Int) (cutoff : Int) :
    (hits.filter (fun t => decide (cutoff < t))).length
      ≤ (pruneHits hits cutoff).length := by
  induction hits with
  | nil => simp [pruneHits]
  | cons a t ih =>
    by_cases ha : a ≤ cutoff
    · have : ¬ (cutoff < a) := by omega
      simpa [pruneHits, ha, List.filter_cons, this] using ih
    · simp only [pruneHits, if_neg ha]
      calc ((a :: t).filter (fun t => decide (cutoff < t))).length
          ≤ (a :: t).length := List.length_filter_le _ _

theorem trimToCap_eq_self (hits : List Int) (cap : Int)
    (h : (hits.length : Int) ≤ cap) : trimToCap hits cap = hits := by
  unfold trimToCap
  have : ¬ ((hits.length : Int) > cap) := by omega
  simp [this]

theorem trimToCap_length (hits : List Int) (cap : Int) (hcap : 0 ≤ cap) :
    ((trimToCap hits cap).length : Int) = min (hits.length : Int) cap := by
  unfold trimToCap
  by_cases h : (hits.length : Int) > cap
  · simp only [if_pos h, List.length_drop]
    omega
  · simp only [if_neg h]
    omega

theorem trimToCap_getLast (xs : List Int) (t : Int) (cap : Int)
    (hcap : 1 ≤ cap) : (trimToCap (xs ++ [t]) cap).getLast? = some t := by
  unfold trimToCap
  by_cases h : (((xs ++ [t]).length : Int) > cap)
  · simp only [if_pos h]
    have hk : (((xs ++ [t]).length : Int) - cap).toNat ≤ xs.length := by
      simp only [List.length_append, List.length_singleton] at h ⊢
      omega
    rw [List.drop_append_of_le_length hk]
    exact List.getLast?_concat _
  · simp only [if_neg h]
    exact List.getLast?_concat _

/-! ## Behaviour of `consume` -/

theorem consume_allowed_eq (key : String) (opts : RateLimitOptions)
    (now : Int) (store : Store) :
    (consume key opts now store).1.allowed
      = decide (((trimToCap
          ((pruneGate ((store key).getD nullRecord) opts.windowMs now).hits
            ++ [now]) (effBucketCap opts)).length : Int) ≤ opts.limit) := by
  simp [consume]

theorem consume_snd_key (key : String) (opts : RateLimitOptions)
    (now : Int) (store : Store) :
    (consume key opts now store).2 key
      = some { hits := trimToCap
                 ((pruneGate ((store key).getD nullRecord) opts.windowMs
                     now).hits ++ [now]) (effBucketCap opts),
               lastPruneAt :=
                 (pruneGate ((store key).getD nullRecord) opts.windowMs
                     now).lastPruneAt } := by
  simp [consume]

theorem consume_snd_ne (key k : String) (opts : RateLimitOptions)
    (now : Int) (store : Store) (h : k ≠ key) :
    (consume key opts now store).2 k = store k := by
  simp [consume, h]

theorem pruneGate_hits_of_in_window (record : StoreRecord)
    (windowMs now : Int) (h : ∀ a ∈ record.hits, now - windowMs < a) :
    (pruneGate record windowMs now).hits = record.hits := by
  unfold pruneGate
  split
  · simpa [pruneOldHits] using pruneHits_eq_self _ _ h
  · rfl

theorem consume_step_in_window (key : String) (opts : RateLimitOptions)
    (now : Int) (store : Store) (acc : List Int)
    (hrec : ((store key).getD nullRecord).hits = acc)
    (hin : ∀ a ∈ acc, now - a < opts.windowMs)
    (hcap : (acc.length : Int) + 1 ≤ effBucketCap opts) :
    (consume key opts now store).1.allowed
        = decide ((acc.length : Int) + 1 ≤ opts.limit)
    ∧ (((consume key opts now store).2 key).getD nullRecord).hits
        = acc ++ [now] := by
  have hgate :
      (pruneGate ((store key).getD nullRecord) opts.windowMs now).hits
        = acc := by
    rw [pruneGate_hits_of_in_window _ _ _ (fun a ha => by
      rw [hrec] at ha; have := hin a ha; omega), hrec]
  have hlen : ((acc ++ [now]).length : Int) = (acc.length : Int) + 1 := by
    rw [List.length_append, List.length_singleton]; push_cast; ring
  have htrim : trimToCap (acc ++ [now]) (effBucketCap opts) = acc ++ [now] :=
    trimToCap_eq_self _ _ (by omega)
  constructor
  · rw [consume_allowed_eq, hgate, htrim, hlen]
  · rw [consume_snd_key]
    simp only [Option.getD_some]
    rw [hgate, htrim]

theorem consumeAll_length (key : String) (opts : RateLimitOptions)
    (ts : List Int) : ∀ store : Store,
    (consumeAll key opts ts store).1.length = ts.length := by
  induction ts with
  | nil => intro store; rfl
  | cons t rest ih => intro store; simp [consumeAll, ih]

theorem consumeAll_allowed_in_window (key : String) (opts : RateLimitOptions)
    (ts : List Int) : ∀ (store : Store) (acc : List Int),
    ((store key).getD nullRecord).hits = acc →
    (∀ a ∈ acc, ∀ b ∈ ts, b - a < opts.windowMs) →
    (∀ a ∈ ts, ∀ b ∈ ts, b - a < opts.windowMs) →
    ((acc.length + ts.length : Nat) : Int) ≤ effBucketCap opts →
    ∀ i, i < ts.length →
      ((consumeAll key opts ts store).1.getD i dfltResult).allowed
        = decide (((acc.length + i : Nat) : Int) + 1 ≤ opts.limit) := by
  induction ts with
  | nil =>
    intro store acc _ _ _ _ i hi
    exact absurd hi (by simp)
  | cons t rest ih =>
    intro store acc hrec h1 h2 hcap i hi
    obtain ⟨hallow, hhits⟩ :=
      consume_step_in_window key opts t store acc hrec
        (fun a ha => h1 a ha t (by simp))
        (by rw [List.length_cons] at hcap; push_cast at hcap ⊢; omega)
    match i with
    | 0 =>
      simpa [consumeAll, List.getD_cons_zero] using hallow
    | i + 1 =>
      have h1' : ∀ a ∈ acc ++ [t], ∀ b ∈ rest, b - a < opts.windowMs := by
        intro a ha b hb
        rcases List.mem_append.mp ha with hL | hR
        · exact h1 a hL b (List.mem_cons_of_mem _ hb)
        · have : a = t := by simpa using hR
          subst this
          exact h2 a (by simp) b (List.mem_cons_of_mem _ hb)
      have h2' : ∀ a ∈ rest, ∀ b ∈ rest, b - a < opts.windowMs :=
        fun a ha b hb =>
          h2 a (List.mem_cons_of_mem _ ha) b (List.mem_cons_of_mem _ hb)
      have hcap' :
          (((acc ++ [t]).length + rest.length : Nat) : Int)
            ≤ effBucketCap opts := by
        rw [List.length_append, List.length_singleton]
        rw [List.length_cons] at hcap
        push_cast at hcap ⊢
        omega
      have hrest :=
        ih (consume key opts t store).2 (acc ++ [t]) hhits h1' h2' hcap' i
          (by simpa using hi)
      have hidx :
          (((acc ++ [t]).length + i : Nat) : Int)
            = ((acc.length + (i + 1) : Nat) : Int) := by
        rw [List.length_append, List.length_singleton]
        push_cast
        ring
      rw [hidx] at hrest
      simpa [consumeAll, List.getD_cons_succ] using hrest

theorem consume_hits_le_cap (key : String) (opts : RateLimitOptions)
    (now : Int) (store : Store) (hcap : 0 ≤ effBucketCap opts)
    (r : StoreRecord) (hr : (consume key opts now store).2 key = some r) :
    (r.hits.length : Int) ≤ effBucketCap opts := by
  rw [consume_snd_key, Option.some.injEq] at hr
  have hh : r.hits = trimToCap
      ((pruneGate ((store key).getD nullRecord) opts.windowMs now).hits
        ++ [now]) (effBucketCap opts) := by rw [← hr]
  rw [hh, trimToCap_length _ _ hcap]
  omega

theorem consumeAll_hits_le_cap (key : String) (opts : RateLimitOptions)
    (ts : List Int) (hcap : 0 ≤ effBucketCap opts) :
    ∀ store : Store,
      (∀ r, store key = some r → (r.hits.length : Int) ≤ effBucketCap opts) →
      ∀ r, (consumeAll key opts ts store).2 key = some r →
        (r.hits.length : Int) ≤ effBucketCap opts := by
  induction ts with
  | nil => intro store hstore r hr; exact hstore r hr
  | cons t rest ih =>
    intro store hstore r hr
    simp only [consumeAll] at hr
    exact ih (consume key opts t store).2
      (fun s hs => consume_hits_le_cap key opts t store hcap s hs) r hr

theorem consume_allowed_of_cap_lt (key : String) (opts : RateLimitOptions)
    (now : Int) (store : Store) (h0 : 0 ≤ effBucketCap opts)
    (hlt : effBucketCap opts < opts.limit) :
    (consume key opts now store).1.allowed = true := by
  rw [consume_allowed_eq, trimToCap_length _ _ h0]
  simp only [decide_eq_true_eq]
  omega

theorem consume_appends_hit (key : String) (opts : RateLimitOptions)
    (now : Int) (store : Store) (hcap : 1 ≤ effBucketCap opts) :
    ∃ r, (consume key opts now store).2 key = some r
      ∧ r.hits.getLast? = some now
      ∧ (consume key opts now store).1.allowed
          = decide ((r.hits.length : Int) ≤ opts.limit) := by
  refine ⟨_, consume_snd_key key opts now store, ?_, ?_⟩
  · exact trimToCap_getLast _ _ _ hcap
  · rw [consume_allowed_eq]

theorem consume_denied_of_recent (key : String) (opts : RateLimitOptions)
    (now : Int) (store : Store) (r0 : StoreRecord)
    (hr : store key = some r0) (hpos : 0 ≤ opts.limit)
    (hrecent : opts.limit ≤
      ((r0.hits.filter
          (fun x => decide (now - opts.windowMs < x))).length : Int))
    (hcap : opts.limit + 1 ≤ effBucketCap opts) :
    (consume key opts now store).1.allowed = false := by
  have hfl :
      (r0.hits.filter (fun x => decide (now - opts.windowMs < x))).length
        ≤ (pruneGate r0 opts.windowMs now).hits.length := by
    unfold pruneGate
    split
    · simpa [pruneOldHits] using
        length_filter_le_pruneHits r0.hits (now - opts.windowMs)
    · exact List.length_filter_le _ _
  rw [consume_allowed_eq, hr]
  simp only [Option.getD_some, decide_eq_false_iff_not, not_le]
  rw [trimToCap_length _ _ (by omega), List.length_append,
    List.length_singleton]
  omega

/-! ## Behaviour of `applySecurityHeaders` and `middleware` -/

theorem applySecurityHeaders_sec (resp : ResponseM) (req : RequestM) :
    secHeaderOk (applySecurityHeaders resp req) := by
  unfold secHeaderOk applySecurityHeaders
  by_cases hapi : jsStartsWith req.pathname "/api"
  · by_cases horig : (req.headers "origin").getD "" = ""
        ∨ (req.headers "origin").getD "" = req.nextUrlOrigin
    · simp [hapi, horig, getHeader_setHeader_self, getHeader_setHeader_ne]
    · simp [hapi, horig, getHeader_setHeader_self, getHeader_setHeader_ne]
  · simp [hapi, getHeader_setHeader_self, getHeader_setHeader_ne]

theorem applySecurityHeaders_cors_pos (resp : ResponseM) (req : RequestM)
    (hapi : jsStartsWith req.pathname "/api" = true)
    (horig : (req.headers "origin").getD "" = ""
      ∨ (req.headers "origin").getD "" = req.nextUrlOrigin) :
    getHeader (applySecurityHeaders resp req).headers
        "Access-Control-Allow-Origin" = some req.nextUrlOrigin
    ∧ getHeader (applySecurityHeaders resp req).headers "Vary" = some "Origin"
    ∧ getHeader (applySecurityHeaders resp req).headers
        "Access-Control-Allow-Headers"
        = some "Content-Type, Authorization, X-Requested-With"
    ∧ getHeader (applySecurityHeaders resp req).headers
        "Access-Control-Allow-Methods"
        = some "GET, POST, PUT, DELETE, OPTIONS"
    ∧ getHeader (applySecurityHeaders resp req).headers
        "Access-Control-Max-Age" = some "600" := by
  unfold applySecurityHeaders
  simp [hapi, horig, getHeader_setHeader_self, getHeader_setHeader_ne]

theorem applySecurityHeaders_cors_neg (resp : ResponseM) (req : RequestM)
    (o : String) (ho : req.headers "origin" = some o) (hne : o ≠ "")
    (hfo : o ≠ req.nextUrlOrigin) :
    getHeader (applySecurityHeaders resp req).headers
        "Access-Control-Allow-Origin"
      = getHeader resp.headers "Access-Control-Allow-Origin"
    ∧ getHeader (applySecurityHeaders resp req).headers "Vary"
      = getHeader resp.headers "Vary"
    ∧ getHeader (applySecurityHeaders resp req).headers
        "Access-Control-Allow-Headers"
      = getHeader resp.headers "Access-Control-Allow-Headers"
    ∧ getHeader (applySecurityHeaders resp req).headers
        "Access-Control-Allow-Methods"
      = getHeader resp.headers "Access-Control-Allow-Methods"
    ∧ getHeader (applySecurityHeaders resp req).headers
        "Access-Control-Max-Age"
      = getHeader resp.headers "Access-Control-Max-Age" := by
  unfold applySecurityHeaders
  have hcond : ¬ ((req.headers "origin").getD "" = ""
      ∨ (req.headers "origin").getD "" = req.nextUrlOrigin) := by
    rw [ho]
    simp only [Option.getD_some]
    rintro (h | h)
    · exact hne h
    · exact hfo h
  by_cases hapi : jsStartsWith req.pathname "/api"
  · simp [hapi, hcond, getHeader_setHeader_ne]
  · simp [hapi, getHeader_setHeader_ne]

theorem applySecurityHeaders_status (resp : ResponseM) (req : RequestM) :
    (applySecurityHeaders resp req).status = resp.status := by
  simp [applySecurityHeaders]

theorem applySecurityHeaders_body (resp : ResponseM) (req : RequestM) :
    (applySecurityHeaders resp req).body = resp.body := by
  simp [applySecurityHeaders]

/-! ## Claim theorems -/

/-- C4: every response produced by the pipeline — preflight, rate-limit
denied 429, rate-limited pass-through, and plain pass-through — carries the
full fixed security-header set (Content-Security-Policy, Referrer-Policy,
X-Content-Type-Options, X-Frame-Options, X-XSS-Protection,
Permissions-Policy, Cross-Origin-Opener-Policy,
Cross-Origin-Resource-Policy); no branch of `middleware` returns without
applying it. -/
theorem middleware_security_headers_all_paths (req : RequestM) (now : Int)
    (store : Store) : secHeaderOk (middleware req now store).1 := by
  simp only [middleware]
  split
  · exact applySecurityHeaders_sec _ _
  · split
    · split
      · exact applySecurityHeaders_sec _ _
      · exact applySecurityHeaders_sec _ _
    · exact applySecurityHeaders_sec _ _

/-- C5: for an API-prefixed request whose origin header is absent or equal
to the request's own origin, the response carries
Access-Control-Allow-Origin set to the request's own origin, Vary: Origin,
the explicit Access-Control-Allow-Headers list, the
Access-Control-Allow-Methods list and Access-Control-Max-Age; for an
API-prefixed request with a foreign origin none of these CORS headers are
set. -/
theorem middleware_cors_same_and_foreign (req1 req2 : RequestM)
    (now1 now2 : Int) (s1 s2 : Store) (o : String)
    (h1api : jsStartsWith req1.pathname "/api" = true)
    (h1o : req1.headers "origin" = none
      ∨ req1.headers "origin" = some req1.nextUrlOrigin)
    (h2api : jsStartsWith req2.pathname "/api" = true)
    (h2o : req2.headers "origin" = some o) (h2ne : o ≠ "")
    (h2f : o ≠ req2.nextUrlOrigin) :
    (getHeader (middleware req1 now1 s1).1.headers
        "Access-Control-Allow-Origin" = some req1.nextUrlOrigin
      ∧ getHeader (middleware req1 now1 s1).1.headers "Vary" = some "Origin"
      ∧ getHeader (middleware req1 now1 s1).1.headers
          "Access-Control-Allow-Headers"
          = some "Content-Type, Authorization, X-Requested-With"
      ∧ getHeader (middleware req1 now1 s1).1.headers
          "Access-Control-Allow-Methods"
          = some "GET, POST, PUT, DELETE, OPTIONS"
      ∧ getHeader (middleware req1 now1 s1).1.headers
          "Access-Control-Max-Age" = some "600")
    ∧ (getHeader (middleware req2 now2 s2).1.headers
          "Access-Control-Allow-Origin" = none
      ∧ getHeader (middleware req2 now2 s2).1.headers "Vary" = none
      ∧ getHeader (middleware req2 now2 s2).1.headers
          "Access-Control-Allow-Headers" = none
      ∧ getHeader (middleware req2 now2 s2).1.headers
          "Access-Control-Allow-Methods" = none
      ∧ getHeader (middleware req2 now2 s2).1.headers
          "Access-Control-Max-Age" = none) := by
  constructor
  · have horig : (req1.headers "origin").getD "" = ""
        ∨ (req1.headers "origin").getD "" = req1.nextUrlOrigin := by
      rcases h1o with h | h <;> simp [h]
    simp only [middleware]
    split
    · exact applySecurityHeaders_cors_pos _ _ h1api horig
    · split
      · split
        · exact applySecurityHeaders_cors_pos _ _ h1api horig
        · exact applySecurityHeaders_cors_pos _ _ h1api horig
      · exact applySecurityHeaders_cors_pos _ _ h1api horig
  · simp only [middleware]
    split
    · obtain ⟨a, b, c, d, e⟩ := applySecurityHeaders_cors_neg
        { status := 204, headers := [], body := BodyM.payload preflightBody }
        req2 o h2o h2ne h2f
      exact ⟨by rw [a]; rfl, by rw [b]; rfl, by rw [c]; rfl,
        by rw [d]; rfl, by rw [e]; rfl⟩
    · split
      · split
        · obtain ⟨a, b, c, d, e⟩ := applySecurityHeaders_cors_neg _ req2 o
            h2o h2ne h2f
          refine ⟨?_, ?_, ?_, ?_, ?_⟩
          · rw [a]; simp [getHeader, buildRateLimitHeaders]
          · rw [b]; simp [getHeader, buildRateLimitHeaders]
          · rw [c]; simp [getHeader, buildRateLimitHeaders]
          · rw [d]; simp [getHeader, buildRateLimitHeaders]
          · rw [e]; simp [getHeader, buildRateLimitHeaders]
        · obtain ⟨a, b, c, d, e⟩ := applySecurityHeaders_cors_neg _ req2 o
            h2o h2ne h2f
          refine ⟨?_, ?_, ?_, ?_, ?_⟩
          · rw [a]; simp [getHeader, buildRateLimitHeaders]
          · rw [b]; simp [getHeader, buildRateLimitHeaders]
          · rw [c]; simp [getHeader, buildRateLimitHeaders]
          · rw [d]; simp [getHeader, buildRateLimitHeaders]
          · rw [e]; simp [getHeader, buildRateLimitHeaders]
      · obtain ⟨a, b, c, d, e⟩ := applySecurityHeaders_cors_neg
          { status := 200, headers := [], body := BodyM.passThrough }
          req2 o h2o h2ne h2f
        exact ⟨by rw [a]; rfl, by rw [b]; rfl, by rw [c]; rfl,
          by rw [d]; rfl, by rw [e]; rfl⟩

/-- Witness for C5: a concrete same-origin request gets the allow-origin
header; a concrete foreign-origin request gets none. -/
theorem middleware_cors_same_and_foreign_witness :
    getHeader (middleware
        { method := "GET", pathname := "/api/chat",
          nextUrlOrigin := "https://app.example",
          headers := fun _ => none } 0 emptyStore).1.headers
      "Access-Control-Allow-Origin" = some "https://app.example"
    ∧ getHeader (middleware
        { method := "GET", pathname := "/api/chat",
          nextUrlOrigin := "https://app.example",
          headers := fun n =>
            if n = "origin" then some "https://evil.example" else none }
        0 emptyStore).1.headers "Access-Control-Allow-Origin" = none := by
  have h := middleware_cors_same_and_foreign
    { method := "GET", pathname := "/api/chat",
      nextUrlOrigin := "https://app.example", headers := fun _ => none }
    { method := "GET", pathname := "/api/chat",
      nextUrlOrigin := "https://app.example",
      headers := fun n =>
        if n = "origin" then some "https://evil.example" else none }
    0 0 emptyStore emptyStore "https://evil.example" (by decide)
    (Or.inl rfl) (by decide) (by decide) (by decide) (by decide)
  exact ⟨h.1.1, h.2.1⟩

/-- C6 (amended): for every OPTIONS request on an API-prefixed path the
pipeline short-circuits before rate limiting (the limiter store is left
untouched) and returns a response with status 204 whose body is the JSON
serialization of the empty object (`NextResponse.json({}, ...)`), i.e.
two bytes rather than a strictly empty body. -/
theorem middleware_preflight_short_circuit (req : RequestM) (now : Int)
    (store : Store) (hm : req.method = "OPTIONS")
    (hapi : jsStartsWith req.pathname "/api" = true) :
    (middleware req now store).1.status = 204
    ∧ (middleware req now store).1.body = BodyM.payload preflightBody
    ∧ (middleware req now store).2 = store := by
  simp only [middleware]
  rw [if_pos ⟨hm, hapi⟩]
  exact ⟨applySecurityHeaders_status _ _, applySecurityHeaders_body _ _, rfl⟩

/-- Witness for C6 (amended): a concrete OPTIONS request to /api/chat. -/
theorem middleware_preflight_short_circuit_witness :
    (middleware
        { method := "OPTIONS", pathname := "/api/chat",
          nextUrlOrigin := "https://app.example",
          headers := fun _ => none } 0 emptyStore).1.status = 204
    ∧ (middleware
        { method := "OPTIONS", pathname := "/api/chat",
          nextUrlOrigin := "https://app.example",
          headers := fun _ => none } 0 emptyStore).1.body
        = BodyM.payload preflightBody
    ∧ (middleware
        { method := "OPTIONS", pathname := "/api/chat",
          nextUrlOrigin := "https://app.example",
          headers := fun _ => none } 0 emptyStore).2 = emptyStore :=
  middleware_preflight_short_circuit _ 0 emptyStore rfl (by decide)

/-- Counterexample for C6 as stated: the preflight response's body is the
two-byte string `JSON.stringify({})`, not an empty body. -/
theorem middleware_preflight_body_nonempty :
    (middleware
        { method := "OPTIONS", pathname := "/api/chat",
          nextUrlOrigin := "https://app.example",
          headers := fun _ => none } 0 emptyStore).1.body
      = BodyM.payload "\x7b\x7d"
    ∧ BodyM.payload "\x7b\x7d" ≠ BodyM.payload "" := by
  constructor
  · exact (middleware_preflight_short_circuit _ 0 emptyStore rfl
      (by decide)).2.1
  · decide

/-- C1: starting from a fresh key, for any sequence of consume() calls on
that key, all within one window and no longer than bucketCap, the
(i+1)-st call is denied iff i+1 > limit — so the boundary call
(i+1 = limit, e.g. the 60th for limit 60) is admitted and the next one
(the 61st) is denied. -/
theorem consume_window_boundary (key : String) (opts : RateLimitOptions)
    (ts : List Int)
    (hwin : ∀ a ∈ ts, ∀ b ∈ ts, b - a < opts.windowMs)
    (hcap : (ts.length : Int) ≤ effBucketCap opts) :
    ∀ i, i < ts.length →
      (((consumeAll key opts ts emptyStore).1.getD i dfltResult).allowed
          = false
        ↔ opts.limit < (i : Int) + 1) := by
  intro i hi
  have h := consumeAll_allowed_in_window key opts ts emptyStore [] rfl
    (by intro a ha; simp at ha) hwin (by simpa using hcap) i hi
  rw [h]
  simp [decide_eq_false_iff_not, not_le]

/-- Witness for C1: limit 2, three calls inside one window on a fresh
key — the third call is denied because 3 > 2. -/
theorem consume_window_boundary_witness :
    ((consumeAll "K" { limit := 2, windowMs := 1000, bucketCap := none }
        [0, 1, 2] emptyStore).1.getD 2 dfltResult).allowed = false :=
  (consume_window_boundary "K"
    { limit := 2, windowMs := 1000, bucketCap := none } [0, 1, 2]
    (by decide) (by decide) 2 (by decide)).mpr (by decide)

/-- Counterexample for C2 as stated: with limit 3 and windowMs 1000 on a
fresh key, the call at t=1050 (after calls at t=0,100,200,300) is denied
with remaining 0, not allowed with remaining 2 — at t=1050 the hits at
100 and 200 and the recorded hit of the denied t=300 call are all still
inside the 1000 ms window. -/
theorem scenario_t1050_denied :
    ((consumeAll "K" { limit := 3, windowMs := 1000, bucketCap := none }
        [0, 100, 200, 300, 1050] emptyStore).1.getD 4 dfltResult)
      = { allowed := false, remaining := 0, limit := 3, reset := 1 } := by
  decide

/-- C2 (amended): limit 3, windowMs 1000, single key K: calls at
t=0,100,200 are allowed with remaining 2,1,0; the call at t=300 is denied
with remaining 0 and 700 ms until the oldest hit leaves the window
(surfaced as reset = ceil(700/1000) = 1 second); the call at t=1050 is
also denied with remaining 0, because the hits at t=100, t=200 and the
recorded hit of the denied t=300 call are still in-window; a later call
at t=2100 is allowed again with remaining 2. -/
theorem scenario_limit3_window1000 :
    (consumeAll "K" { limit := 3, windowMs := 1000, bucketCap := none }
        [0, 100, 200, 300, 1050, 2100] emptyStore).1
      = [{ allowed := true, remaining := 2, limit := 3, reset := 1 },
         { allowed := true, remaining := 1, limit := 3, reset := 1 },
         { allowed := true, remaining := 0, limit := 3, reset := 1 },
         { allowed := false, remaining := 0, limit := 3, reset := 1 },
         { allowed := false, remaining := 0, limit := 3, reset := 1 },
         { allowed := true, remaining := 2, limit := 3, reset := 1 }]
    ∧ (((consumeAll "K" { limit := 3, windowMs := 1000, bucketCap := none }
          [0, 100, 200, 300] emptyStore).2 "K").getD nullRecord).hits.headD 0
        + 1000 - 300 = 700 := by
  constructor
  · decide
  · decide

/-- C3, code evaluated at the failing inputs: consume() performs no
configuration validation — with a non-positive limit it returns an
ordinary always-denying LimitResult, and with a non-positive windowMs an
ordinary allowing LimitResult, instead of failing fast. -/
theorem consume_no_failfast_on_invalid_options :
    (consume "k" { limit := 0, windowMs := 1000, bucketCap := none } 0
        emptyStore).1
      = { allowed := false, remaining := 0, limit := 0, reset := 1 }
    ∧ (consume "k" { limit := 5, windowMs := 0, bucketCap := none } 0
        emptyStore).1
      = { allowed := true, remaining := 4, limit := 5, reset := 0 } := by
  constructor
  · decide
  · decide

/-- C7: getClientIp follows the priority order — the trimmed first
comma-separated entry of x-forwarded-for, then x-real-ip, then
x-vercel-forwarded-for, then the fixed sentinel "0.0.0.0" when none are
present — it never fails (it is a total function), and on a forwarded-for
value "1.2.3.4, 5.6.6.6" it returns "1.2.3.4". -/
theorem getClientIp_priority (h : HeaderSource) :
    (∀ v, h "x-forwarded-for" = some v →
      jsTrim (firstSegment ',' v) ≠ "" →
      getClientIp h = jsTrim (firstSegment ',' v))
    ∧ (∀ r, h "x-forwarded-for" = none → h "x-real-ip" = some r →
      r ≠ "" → getClientIp h = r)
    ∧ (∀ p, h "x-forwarded-for" = none → h "x-real-ip" = none →
      h "x-vercel-forwarded-for" = some p → p ≠ "" → getClientIp h = p)
    ∧ (h "x-forwarded-for" = none → h "x-real-ip" = none →
      h "x-vercel-forwarded-for" = none → getClientIp h = "0.0.0.0")
    ∧ (h "x-forwarded-for" = some "1.2.3.4, 5.6.6.6" →
      getClientIp h = "1.2.3.4") := by
  have main : ∀ v, h "x-forwarded-for" = some v →
      jsTrim (firstSegment ',' v) ≠ "" →
      getClientIp h = jsTrim (firstSegment ',' v) := by
    intro v hv hip
    have hvne : v ≠ "" := by
      intro hveq
      rw [hveq] at hip
      exact hip (by decide)
    simp only [getClientIp]
    rw [hv]
    simp only [Option.getD_some]
    rw [if_pos ⟨hvne, hip⟩]
  refine ⟨main, ?_, ?_, ?_, ?_⟩
  · intro r hxff hr hrne
    simp only [getClientIp]
    rw [hxff, hr]
    simp only [Option.getD_some, Option.getD_none]
    rw [if_neg (fun hc => hc.1 rfl), if_pos hrne]
  · intro p hxff hre hp hpne
    simp only [getClientIp]
    rw [hxff, hre, hp]
    simp only [Option.getD_some, Option.getD_none]
    rw [if_neg (fun hc => hc.1 rfl), if_neg (fun hc => hc rfl),
      if_pos hpne]
  · intro hxff hre hvc
    simp only [getClientIp]
    rw [hxff, hre, hvc]
    simp only [Option.getD_none]
    rw [if_neg (fun hc => hc.1 rfl), if_neg (fun hc => hc rfl),
      if_neg (fun hc => hc rfl)]
  · intro hv
    have := main "1.2.3.4, 5.6.6.6" hv (by decide)
    rw [this]
    decide

/-- Witness for C7: each priority rung exercised on a concrete header
map. -/
theorem getClientIp_priority_witness :
    getClientIp (fun n =>
        if n = "x-forwarded-for" then some "1.2.3.4, 5.6.6.6" else none)
      = "1.2.3.4"
    ∧ getClientIp (fun n =>
        if n = "x-real-ip" then some "9.9.9.9" else none) = "9.9.9.9"
    ∧ getClientIp (fun n =>
        if n = "x-vercel-forwarded-for" then some "8.8.8.8" else none)
      = "8.8.8.8"
    ∧ getClientIp (fun _ => none) = "0.0.0.0" := by
  refine ⟨?_, ?_, ?_, ?_⟩
  · exact (getClientIp_priority (fun n =>
      if n = "x-forwarded-for" then some "1.2.3.4, 5.6.6.6" else none)).2.2.2.2
      rfl
  · exact (getClientIp_priority (fun n =>
      if n = "x-real-ip" then some "9.9.9.9" else none)).2.1 "9.9.9.9"
      rfl rfl (by decide)
  · exact (getClientIp_priority (fun n =>
      if n = "x-vercel-forwarded-for" then some "8.8.8.8" else none)).2.2.1
      "8.8.8.8" rfl rfl rfl (by decide)
  · exact (getClientIp_priority (fun _ => none)).2.2.2.1 rfl rfl rfl

/-- Counterexample for C8 as stated: the prune pass also evicts a hit
whose timestamp equals now − windowMs exactly, which is not strictly
older than the cutoff: with a hit at t=100, windowMs 1000 and now=1100,
no hit is older than the cutoff 100 — the claim predicts nothing is
removed — yet the pass removes the hit. -/
theorem prune_evicts_boundary_hit :
    ([100] : List Int).filter (fun t => decide (t < 1100 - 1000)) = []
    ∧ (pruneOldHits { hits := [100], lastPruneAt := 0 } 1000 1100).hits
        = [] := by
  constructor
  · decide
  · decide

/-- C8 (amended): within consume(), pruning runs only when more than
500 ms have elapsed since the record's last prune or it was never pruned
(lastPruneAt = 0); a prune pass removes exactly the contiguous leading
prefix of hits whose timestamp is at most now − windowMs (hits exactly on
the boundary are evicted too); with hits at t=0 and t=700, windowMs 1000
and a never-pruned record, a call at t=1100 evicts the t=0 hit and
retains the t=700 hit. -/
theorem prune_gate_and_leading_run (key : String) (opts : RateLimitOptions)
    (now : Int) (store : Store) (r0 : StoreRecord)
    (hr : store key = some r0) :
    (¬ (r0.lastPruneAt = 0 ∨ now - r0.lastPruneAt > 500) →
      (consume key opts now store).2 key
        = some { hits := trimToCap (r0.hits ++ [now]) (effBucketCap opts),
                 lastPruneAt := r0.lastPruneAt })
    ∧ ((r0.lastPruneAt = 0 ∨ now - r0.lastPruneAt > 500) →
      (consume key opts now store).2 key
        = some { hits := trimToCap
                   (pruneHits r0.hits (now - opts.windowMs) ++ [now])
                   (effBucketCap opts),
                 lastPruneAt := now })
    ∧ (∀ hits : List Int, ∀ cutoff : Int, hits.Pairwise (· ≤ ·) →
      pruneHits hits cutoff = hits.filter (fun t => decide (cutoff < t)))
    ∧ (consume "K" { limit := 60, windowMs := 1000, bucketCap := none }
        1100 (fun k => if k = "K" then
          some { hits := [0, 700], lastPruneAt := 0 } else none)).2 "K"
      = some { hits := [700, 1100], lastPruneAt := 1100 } := by
  refine ⟨?_, ?_, fun hits cutoff hs => pruneHits_sorted hits cutoff hs, ?_⟩
  · intro hc
    rw [consume_snd_key, hr]
    simp only [Option.getD_some]
    unfold pruneGate
    rw [if_neg hc]
  · intro hc
    rw [consume_snd_key, hr]
    simp only [Option.getD_some]
    unfold pruneGate
    rw [if_pos hc]
    rfl
  · decide

/-- Witness for C8 (amended): a record last pruned 400 ms ago is not
pruned again — the store keeps all old hits plus the new one. -/
theorem prune_gate_and_leading_run_witness :
    (consume "K" { limit := 3, windowMs := 1000, bucketCap := none } 1000
        (fun k => if k = "K" then
          some { hits := [600, 700], lastPruneAt := 600 } else none)).2 "K"
      = some { hits := trimToCap ([600, 700] ++ [1000])
                 (effBucketCap
                   { limit := 3, windowMs := 1000, bucketCap := none }),
               lastPruneAt := 600 } :=
  (prune_gate_and_leading_run "K"
    { limit := 3, windowMs := 1000, bucketCap := none } 1000
    (fun k => if k = "K" then
      some { hits := [600, 700], lastPruneAt := 600 } else none)
    { hits := [600, 700], lastPruneAt := 600 } (by decide)).1 (by decide)

/-- C9: after a consume() call the stored hit count for the key is at
most bucketCap (for any bucketCap ≥ 0, which the default
max(limit×5, 100) always is); the same bound holds after any whole call
sequence from a fresh store — pushing bucketCap+1 hits onto one key caps
stored hits at bucketCap regardless of limit — and when
bucketCap < limit, consume() can never return allowed = false. -/
theorem bucketCap_bounds (key : String) (opts : RateLimitOptions)
    (now : Int) (store : Store) (ts : List Int) :
    (opts.bucketCap = none →
      effBucketCap opts = max (opts.limit * 5) 100)
    ∧ (0 ≤ effBucketCap opts →
      ∀ r, (consume key opts now store).2 key = some r →
        (r.hits.length : Int) ≤ effBucketCap opts)
    ∧ (0 ≤ effBucketCap opts →
      ∀ r, (consumeAll key opts ts emptyStore).2 key = some r →
        (r.hits.length : Int) ≤ effBucketCap opts)
    ∧ (0 ≤ effBucketCap opts → effBucketCap opts < opts.limit →
      (consume key opts now store).1.allowed = true) := by
  refine ⟨?_, ?_, ?_, ?_⟩
  · intro hnone
    simp [effBucketCap, defaultBucketCap, hnone]
  · exact fun h0 r hr => consume_hits_le_cap key opts now store h0 r hr
  · exact fun h0 r hr => consumeAll_hits_le_cap key opts ts h0 emptyStore
      (fun s hs => by simp [emptyStore] at hs) r hr
  · exact fun h0 hlt => consume_allowed_of_cap_lt key opts now store h0 hlt

/-- Witness for C9: bucketCap 3, limit 2 — four pushed hits are capped at
three stored hits; and with bucketCap 2 below limit 5 the call is
allowed. -/
theorem bucketCap_bounds_witness :
    (consumeAll "K" { limit := 2, windowMs := 1000000, bucketCap := some 3 }
        [0, 1, 2, 3] emptyStore).2 "K"
      = some { hits := [1, 2, 3], lastPruneAt := 1 }
    ∧ ((({ hits := [1, 2, 3], lastPruneAt := 1 } : StoreRecord).hits.length
        : Int))
      ≤ effBucketCap { limit := 2, windowMs := 1000000, bucketCap := some 3 }
    ∧ (consume "K" { limit := 5, windowMs := 1000, bucketCap := some 2 } 0
        emptyStore).1.allowed = true := by
  refine ⟨by decide, ?_, ?_⟩
  · exact (bucketCap_bounds "K"
      { limit := 2, windowMs := 1000000, bucketCap := some 3 } 0 emptyStore
      [0, 1, 2, 3]).2.2.1 (by decide)
      { hits := [1, 2, 3], lastPruneAt := 1 } (by decide)
  · exact (bucketCap_bounds "K"
      { limit := 5, windowMs := 1000, bucketCap := some 2 } 0 emptyStore
      []).2.2.2 (by decide) (by decide)

/-- C10: every consume() call appends the current timestamp to the key's
stored hits before computing the decision — the appended hit is the last
stored hit and the decision's count includes it — including denied calls;
consequently, whenever the key's record still holds at least `limit` hits
newer than now − windowMs (for example hits recorded by a run of denied
over-limit calls that stopped less than one window ago), the next call is
denied as well. -/
theorem consume_records_denied_hits (key : String)
    (opts : RateLimitOptions) (now : Int) (store : Store)
    (r0 : StoreRecord) :
    (1 ≤ effBucketCap opts →
      ∃ r, (consume key opts now store).2 key = some r
        ∧ r.hits.getLast? = some now
        ∧ (consume key opts now store).1.allowed
            = decide ((r.hits.length : Int) ≤ opts.limit))
    ∧ (store key = some r0 → 0 ≤ opts.limit →
      opts.limit ≤ ((r0.hits.filter
          (fun x => decide (now - opts.windowMs < x))).length : Int) →
      opts.limit + 1 ≤ effBucketCap opts →
      (consume key opts now store).1.allowed = false) := by
  constructor
  · exact fun hcap => consume_appends_hit key opts now store hcap
  · exact fun hr hpos hrecent hcap =>
      consume_denied_of_recent key opts now store r0 hr hpos hrecent hcap

/-- Witness for C10: a fresh call stores its own timestamp as the last
hit; and with limit 2, three hits (from calls denied or not) recorded at
t=500..700 keep a call at t=1400 denied. -/
theorem consume_records_denied_hits_witness :
    (∃ r, (consume "K" { limit := 1, windowMs := 1000, bucketCap := none }
        5 emptyStore).2 "K" = some r
      ∧ r.hits.getLast? = some 5
      ∧ (consume "K" { limit := 1, windowMs := 1000, bucketCap := none }
          5 emptyStore).1.allowed
          = decide ((r.hits.length : Int) ≤ 1))
    ∧ ((consume "K" { limit := 2, windowMs := 1000, bucketCap := none }
        1400 (fun k => if k = "K" then
          some { hits := [500, 600, 700], lastPruneAt := 700 }
          else none)).1).allowed = false := by
  constructor
  · exact (consume_records_denied_hits "K"
      { limit := 1, windowMs := 1000, bucketCap := none } 5 emptyStore
      nullRecord).1 (by decide)
  · exact (consume_records_denied_hits "K"
      { limit := 2, windowMs := 1000, bucketCap := none } 1400
      (fun k => if k = "K" then
        some { hits := [500, 600, 700], lastPruneAt := 700 } else none)
      { hits := [500, 600, 700], lastPruneAt := 700 }).2 (by decide)
      (by decide) (by decide) (by decide)
